import Mathlib

/-!
Shallow embedding of `src/app.py` (Marathon Training Coach, a Streamlit app).

Streamlit reruns the whole script on every user interaction, and
`st.session_state` survives reruns.  We model the effect of one rerun on the
session state as a step function per UI region (sidebar ingestion, plan tab,
run-log tab, chat tab), and a whole interaction history as a list of such
steps starting from the initial session state (`app.py` lines 22-31).

External services (the `TextLoader` text extraction, the OpenAI embedding
service, and the chat model behind `ConversationalRetrievalChain`) are opaque
and are passed in as function parameters.  The number of embedding-service
invocations is tracked in `embedCalls` so that caching claims can be stated.
Filesystem and environment effects visible in the program (`temp_plan.txt`,
`OPENAI_API_KEY`) are fields of the state.
-/

/-- Modelled from the spec: the Chunker of §4.2.  The concrete implementation
is `RecursiveCharacterTextSplitter(chunk_size=1000, chunk_overlap=200)` from
the external `langchain` library (`app.py` lines 56-60), whose source is not
part of this repository.  Following §4.2, the text is cut into passages of at
most `chunkSize` characters such that consecutive passages share
`chunkOverlap` characters at the boundary: successive windows advance by
`chunkSize - chunkOverlap`. -/
def splitText (chunkSize chunkOverlap : Nat) (t : List Char) : List (List Char) :=
  if h : t.length ≤ chunkSize ∨ chunkSize ≤ chunkOverlap then [t]
  else
    t.take chunkSize :: splitText chunkSize chunkOverlap (t.drop (chunkSize - chunkOverlap))
termination_by t.length
decreasing_by
  push_neg at h
  simp only [List.length_drop]
  omega

/-- Strip the overlap between consecutive passages and concatenate: every
passage except the last contributes its first `length - ov` characters, the
last one all of them. -/
def stitch (ov : Nat) : List (List Char) → List Char
  | [] => []
  | [p] => p
  | p :: q :: ps => p.take (p.length - ov) ++ stitch ov (q :: ps)

/-- Boolean check that consecutive passages share the `ov`-character boundary:
the last `ov` characters of each passage equal the first `ov` characters of
the next one, which is at least `ov` long. -/
def consecutiveOverlapOk (ov : Nat) : List (List Char) → Bool
  | [] => true
  | [_] => true
  | p :: q :: ps =>
    (decide (ov ≤ q.length) && decide (p.drop (p.length - ov) = q.take ov))
      && consecutiveOverlapOk ov (q :: ps)

/-- The `ConversationalRetrievalChain` built at `app.py` lines 67-71: a chain
over the FAISS index of the document's splits.  Only the indexed splits are
relevant here; the LLM inside the chain is opaque. -/
structure Coach where
  splits : List (List Char)
deriving DecidableEq

/-- `st.session_state` (`app.py` lines 22-31) together with the filesystem and
environment effects of the script:
`tempFile` holds the contents of `temp_plan.txt` (`none` when absent),
`apiKey` the `OPENAI_API_KEY` environment variable, and `embedCalls` counts
how many times the embedding service has been invoked
(`OpenAIEmbeddings` / `FAISS.from_documents`, lines 63-64). -/
structure AppState where
  chat_history : List (String × String)
  coach : Option Coach
  embeddings_done : Bool
  training_plan : Option String
  training_principles : Option String
  tempFile : Option (List Nat)
  apiKey : Option String
  embedCalls : Nat
deriving DecidableEq

/-- Lines 22-31: fresh session state; no temp file on disk yet, no key
exported, embedding service never called. -/
def initState : AppState :=
  { chat_history := []
    coach := none
    embeddings_done := false
    training_plan := none
    training_principles := none
    tempFile := none
    apiKey := none
    embedCalls := 0 }

/-- The sidebar block, `app.py` lines 39-74.  `md5` is
`hashlib.md5(...).hexdigest` and `extract` is the `TextLoader` text
extraction; both are opaque parameters.  When a file and a key are present,
the bytes are hashed (line 41 — the result is bound to `file_hash` and never
used again), unconditionally written to `temp_plan.txt` (lines 44-45), and
the key is exported to the environment (line 48); then, only if
`embeddings_done` is still false, the file is loaded, split, embedded, and
turned into the coach chain (lines 51-74).  An extraction failure raises and
aborts the rerun, leaving the already-performed writes in place. -/
def sidebarStep (md5 : List Nat → String) (extract : List Nat → Except String String)
    (s : AppState) (uploaded_file : Option (List Nat)) (openai_api_key : Option String) :
    AppState :=
  match uploaded_file, openai_api_key with
  | some file_bytes, some key =>
    let file_hash := md5 file_bytes
    let s1 := { s with tempFile := some file_bytes, apiKey := some key }
    if s1.embeddings_done then s1
    else
      match extract file_bytes with
      | Except.error _ => s1
      | Except.ok text =>
        { s1 with
          coach := some { splits := splitText 1000 200 text.data }
          embeddings_done := true
          embedCalls := s1.embedCalls + 1 }
  | _, _ => s

/-- The Coach Chat tab, `app.py` lines 213-219.  `llm` is the coach chain
call `(question, chat_history) ↦ answer`.  Returns the new session state and
the list of history arguments passed to the chain during this rerun.  The
answer is only written to the page (line 219); `chat_history` is never
updated. -/
def chatStep (llm : String → List (String × String) → Except String String)
    (s : AppState) (question : String) : AppState × List (List (String × String)) :=
  if question ≠ "" ∧ s.coach.isSome then
    match llm question s.chat_history with
    | Except.ok _answer => (s, [s.chat_history])
    | Except.error _ => (s, [s.chat_history])
  else (s, [])

/-- The Training Plan tab button, `app.py` lines 122-185.  The two chain
calls (lines 134-136 and 169-171) are both made with a literal empty
`chat_history`; on success the plan is stored (line 172).  An exception in
either call aborts the rerun with no state change. -/
def genPlanStep (llm : String → List (String × String) → Except String String)
    (s : AppState) (principles_query plan_context : String) :
    AppState × List (List (String × String)) :=
  if s.coach.isSome then
    match llm principles_query [] with
    | Except.error _ => (s, [[]])
    | Except.ok _principles =>
      match llm plan_context [] with
      | Except.error _ => (s, [[], []])
      | Except.ok plan => ({ s with training_plan := some plan }, [[], []])
  else (s, [])

/-- The Log Runs tab button, `app.py` lines 196-210: one chain call with the
session `chat_history`; the feedback is only written to the page, the state
is unchanged whether the call succeeds or raises. -/
def logRunStep (llm : String → List (String × String) → Except String String)
    (s : AppState) (query : String) : AppState × List (List (String × String)) :=
  if s.coach.isSome then
    match llm query s.chat_history with
    | _ => (s, [s.chat_history])
  else (s, [])

/-- One user interaction: which UI region's callback fires on a rerun, with
the widget values it reads. -/
inductive Op where
  | sidebar (uploaded_file : Option (List Nat)) (openai_api_key : Option String)
  | genPlan (principles_query plan_context : String)
  | logRun (query : String)
  | chat (question : String)

/-- Effect of one rerun on the session state, together with the chain-call
histories issued during it. -/
def step (md5 : List Nat → String) (extract : List Nat → Except String String)
    (llm : String → List (String × String) → Except String String)
    (s : AppState) : Op → AppState × List (List (String × String))
  | Op.sidebar u k => (sidebarStep md5 extract s u k, [])
  | Op.genPlan pq pc => genPlanStep llm s pq pc
  | Op.logRun q => logRunStep llm s q
  | Op.chat q => chatStep llm s q

/-- A whole interaction history: fold `step` over a list of interactions,
collecting every history argument passed to the chain. -/
def run (md5 : List Nat → String) (extract : List Nat → Except String String)
    (llm : String → List (String × String) → Except String String) :
    AppState → List Op → AppState × List (List (String × String))
  | s, [] => (s, [])
  | s, op :: ops =>
    let r := step md5 extract llm s op
    let r2 := run md5 extract llm r.1 ops
    (r2.1, r.2 ++ r2.2)

/-- A document one byte above the spec's example 200 MiB ingestion limit. -/
def bigDoc : List Nat := List.replicate (200 * 1024 * 1024 + 1) 0

/-- Concrete stand-in for the opaque `hashlib.md5(...).hexdigest`: an
injective-on-small-inputs digest, enough to exhibit two documents with
different hashes. -/
def md5Stub : List Nat → String := fun b => toString b

/-- Concrete stand-in for a succeeding `TextLoader` extraction: decode the
bytes as characters. -/
def extractAscii : List Nat → Except String String :=
  fun b => Except.ok (String.mk (b.map Char.ofNat))

/-- Concrete stand-in for a `TextLoader` extraction that raises. -/
def failExtract : List Nat → Except String String :=
  fun _ => Except.error "decode error"

/-- Concrete stand-in for a chat-model call that raises. -/
def failLlm : String → List (String × String) → Except String String :=
  fun _ _ => Except.error "rate limit"

/-- A session state in which ingestion has already succeeded. -/
def readyState : AppState :=
  { initState with coach := some { splits := [] }, embeddings_done := true, embedCalls := 1 }

theorem splitText_base (cs ov : Nat) (t : List Char)
    (h : t.length ≤ cs ∨ cs ≤ ov) : splitText cs ov t = [t] := by
  rw [splitText]
  exact dif_pos h

theorem splitText_cons (cs ov : Nat) (t : List Char)
    (h1 : cs < t.length) (h2 : ov < cs) :
    splitText cs ov t = t.take cs :: splitText cs ov (t.drop (cs - ov)) := by
  rw [splitText]
  exact dif_neg (by omega)

theorem splitText_ne_nil (cs ov : Nat) (t : List Char) : splitText cs ov t ≠ [] := by
  rw [splitText]
  split <;> simp

theorem splitText_head (cs ov : Nat) (hov : ov < cs) (u : List Char) :
    ∃ rest, splitText cs ov u = u.take cs :: rest := by
  rw [splitText]
  split
  · next h =>
    rcases h with h | h
    · exact ⟨[], by rw [List.take_of_length_le h]⟩
    · omega
  · exact ⟨_, rfl⟩

theorem stitch_cons (ov : Nat) (x : List Char) (l : List (List Char)) (h : l ≠ []) :
    stitch ov (x :: l) = x.take (x.length - ov) ++ stitch ov l := by
  cases l with
  | nil => exact absurd rfl h
  | cons q ps => rfl

theorem stitch_splitText (cs ov : Nat) (hov : ov < cs) (t : List Char) :
    stitch ov (splitText cs ov t) = t := by
  have H : ∀ n (t : List Char), t.length ≤ n → stitch ov (splitText cs ov t) = t := by
    intro n
    induction n with
    | zero =>
      intro t ht
      rw [splitText_base cs ov t (Or.inl (by omega))]
      rfl
    | succ n ih =>
      intro t ht
      by_cases hb : t.length ≤ cs
      · rw [splitText_base cs ov t (Or.inl hb)]; rfl
      · push_neg at hb
        rw [splitText_cons cs ov t hb hov]
        rw [stitch_cons ov _ _ (splitText_ne_nil cs ov _)]
        rw [List.length_take_of_le (by omega : cs ≤ t.length)]
        rw [ih (t.drop (cs - ov)) (by simp; omega)]
        rw [List.take_take]
        have hmin : min (cs - ov) cs = cs - ov := by omega
        rw [hmin, List.take_append_drop]
  exact H t.length t le_rfl

theorem mem_flatten_splitText (cs ov : Nat) (hov : ov < cs) (t : List Char) (c : Char)
    (hc : c ∈ t) : c ∈ (splitText cs ov t).flatten := by
  have H : ∀ n (t : List Char), t.length ≤ n → ∀ c, c ∈ t →
      c ∈ (splitText cs ov t).flatten := by
    intro n
    induction n with
    | zero =>
      intro t ht c hc
      rw [splitText_base cs ov t (Or.inl (by omega))]
      simpa using hc
    | succ n ih =>
      intro t ht c hc
      by_cases hb : t.length ≤ cs
      · rw [splitText_base cs ov t (Or.inl hb)]; simpa using hc
      · push_neg at hb
        rw [splitText_cons cs ov t hb hov]
        simp only [List.flatten_cons, List.mem_append]
        rw [← List.take_append_drop (cs - ov) t] at hc
        rcases List.mem_append.mp hc with h | h
        · exact Or.inl (List.take_subset_take_left t (by omega) h)
        · exact Or.inr (ih _ (by simp; omega) c h)
  exact H t.length t le_rfl c hc

theorem splitText_length_le (cs ov : Nat) (hov : ov < cs) (t : List Char) :
    ∀ p ∈ splitText cs ov t, p.length ≤ cs := by
  have H : ∀ n (t : List Char), t.length ≤ n → ∀ p ∈ splitText cs ov t,
      p.length ≤ cs := by
    intro n
    induction n with
    | zero =>
      intro t ht p hp
      rw [splitText_base cs ov t (Or.inl (by omega))] at hp
      simp at hp
      subst hp
      omega
    | succ n ih =>
      intro t ht p hp
      by_cases hb : t.length ≤ cs
      · rw [splitText_base cs ov t (Or.inl hb)] at hp
        simp at hp
        subst hp
        exact hb
      · push_neg at hb
        rw [splitText_cons cs ov t hb hov] at hp
        rcases List.mem_cons.mp hp with hp | hp
        · subst hp
          exact List.length_take_le cs t
        · exact ih _ (by simp; omega) p hp
  exact H t.length t le_rfl

theorem consecutiveOverlapOk_splitText (cs ov : Nat) (hov : ov < cs) (t : List Char) :
    consecutiveOverlapOk ov (splitText cs ov t) = true := by
  have H : ∀ n (t : List Char), t.length ≤ n →
      consecutiveOverlapOk ov (splitText cs ov t) = true := by
    intro n
    induction n with
    | zero =>
      intro t ht
      rw [splitText_base cs ov t (Or.inl (by omega))]
      rfl
    | succ n ih =>
      intro t ht
      by_cases hb : t.length ≤ cs
      · rw [splitText_base cs ov t (Or.inl hb)]; rfl
      · push_neg at hb
        rw [splitText_cons cs ov t hb hov]
        obtain ⟨rest, hrest⟩ := splitText_head cs ov hov (t.drop (cs - ov))
        have hih := ih (t.drop (cs - ov)) (by simp; omega)
        rw [hrest] at hih ⊢
        simp only [consecutiveOverlapOk, Bool.and_eq_true, decide_eq_true_eq]
        refine ⟨⟨?_, ?_⟩, hih⟩
        · simp only [List.length_take, List.length_drop]
          omega
        · rw [List.length_take_of_le (by omega : cs ≤ t.length)]
          rw [List.drop_take, List.take_take]
          congr 1
          omega
  exact H t.length t le_rfl

theorem sidebarStep_tempFile (md5 : List Nat → String)
    (extract : List Nat → Except String String) (s : AppState)
    (b : List Nat) (k : String) :
    (sidebarStep md5 extract s (some b) (some k)).tempFile = some b := by
  simp only [sidebarStep]
  split
  · rfl
  · split <;> rfl

theorem sidebarStep_apiKey (md5 : List Nat → String)
    (extract : List Nat → Except String String) (s : AppState)
    (b : List Nat) (k : String) :
    (sidebarStep md5 extract s (some b) (some k)).apiKey = some k := by
  simp only [sidebarStep]
  split
  · rfl
  · split <;> rfl

theorem sidebarStep_done (md5 : List Nat → String)
    (extract : List Nat → Except String String) (s : AppState)
    (b : List Nat) (k : String) (h : s.embeddings_done = true) :
    sidebarStep md5 extract s (some b) (some k)
      = { s with tempFile := some b, apiKey := some k } := by
  simp [sidebarStep, h]

theorem sidebarStep_extract_error (md5 : List Nat → String)
    (extract : List Nat → Except String String) (s : AppState)
    (b : List Nat) (k : String) (e : String)
    (hdone : s.embeddings_done = false) (hex : extract b = Except.error e) :
    sidebarStep md5 extract s (some b) (some k)
      = { s with tempFile := some b, apiKey := some k } := by
  simp [sidebarStep, hdone, hex]

theorem sidebarStep_chat_history (md5 : List Nat → String)
    (extract : List Nat → Except String String) (s : AppState)
    (u : Option (List Nat)) (k : Option String) :
    (sidebarStep md5 extract s u k).chat_history = s.chat_history := by
  cases u with
  | none => rfl
  | some fb =>
    cases k with
    | none => rfl
    | some key =>
      simp only [sidebarStep]
      split
      · rfl
      · split <;> rfl

theorem step_chat_history (md5 : List Nat → String)
    (extract : List Nat → Except String String)
    (llm : String → List (String × String) → Except String String)
    (s : AppState) (op : Op) :
    (step md5 extract llm s op).1.chat_history = s.chat_history := by
  cases op with
  | sidebar u k => exact sidebarStep_chat_history md5 extract s u k
  | genPlan pq pc =>
    simp only [step, genPlanStep]
    split
    · split
      · rfl
      · split <;> rfl
    · rfl
  | logRun q =>
    simp only [step, logRunStep]
    split <;> rfl
  | chat q =>
    simp only [step, chatStep]
    split
    · split <;> rfl
    · rfl

theorem step_histories (md5 : List Nat → String)
    (extract : List Nat → Except String String)
    (llm : String → List (String × String) → Except String String)
    (s : AppState) (op : Op) :
    ∀ hh ∈ (step md5 extract llm s op).2, hh = [] ∨ hh = s.chat_history := by
  intro hh hmem
  cases op with
  | sidebar u k => simp [step] at hmem
  | genPlan pq pc =>
    left
    simp only [step, genPlanStep] at hmem
    split at hmem
    · split at hmem
      · simpa using hmem
      · split at hmem <;> simpa using hmem
    · simp at hmem
  | logRun q =>
    simp only [step, logRunStep] at hmem
    split at hmem
    · right; simpa using hmem
    · simp at hmem
  | chat q =>
    simp only [step, chatStep] at hmem
    split at hmem
    · split at hmem <;> (right; simpa using hmem)
    · simp at hmem

theorem run_chat_history_invariant (md5 : List Nat → String)
    (extract : List Nat → Except String String)
    (llm : String → List (String × String) → Except String String) :
    ∀ (ops : List Op) (s : AppState),
      (run md5 extract llm s ops).1.chat_history = s.chat_history ∧
      ∀ hh ∈ (run md5 extract llm s ops).2, hh = [] ∨ hh = s.chat_history := by
  intro ops
  induction ops with
  | nil => intro s; exact ⟨rfl, by simp [run]⟩
  | cons op ops ih =>
    intro s
    constructor
    · show (run md5 extract llm (step md5 extract llm s op).1 ops).1.chat_history
        = s.chat_history
      rw [(ih _).1, step_chat_history]
    · intro hh hmem
      rcases List.mem_append.mp hmem with h | h
      · exact step_histories md5 extract llm s op hh h
      · rcases (ih _).2 hh h with h2 | h2
        · exact Or.inl h2
        · rw [step_chat_history] at h2
          exact Or.inr h2

/-- C2: for every non-empty input text, concatenating all passages produced
by the chunker, after stripping the 200-character overlaps between
consecutive passages, reconstructs the text exactly, and no character of the
text is omitted from the passage sequence. -/
theorem chunker_roundtrip_coverage (t : List Char) (hne : t ≠ []) :
    stitch 200 (splitText 1000 200 t) = t ∧
    ∀ c ∈ t, c ∈ (splitText 1000 200 t).flatten :=
  ⟨stitch_splitText 1000 200 (by omega) t,
   fun c hc => mem_flatten_splitText 1000 200 (by omega) t c hc⟩

/-- Witness for C2 at the concrete one-character text. -/
theorem chunker_roundtrip_coverage_witness :
    (['a'] : List Char) ≠ [] ∧
    (stitch 200 (splitText 1000 200 ['a']) = ['a'] ∧
      ∀ c ∈ (['a'] : List Char), c ∈ (splitText 1000 200 ['a']).flatten) :=
  ⟨by decide, chunker_roundtrip_coverage ['a'] (by decide)⟩

/-- C3: every passage produced by the chunker has length at most the target
chunk size of 1000 characters (in particular every one but the last), and
every pair of consecutive passages shares exactly the configured
200-character overlap at its boundary (there are no consecutive pairs when
the text is short enough to yield a single passage). -/
theorem chunker_size_and_overlap (t : List Char) :
    ((splitText 1000 200 t).all fun p => p.length ≤ 1000) = true ∧
    consecutiveOverlapOk 200 (splitText 1000 200 t) = true := by
  constructor
  · rw [List.all_eq_true]
    intro p hp
    exact decide_eq_true (splitText_length_le 1000 200 (by omega) t p hp)
  · exact consecutiveOverlapOk_splitText 1000 200 (by omega) t

/-- C1: the code at the failing input.  After ingesting the one-byte document
`[97]`, ingesting the different document `[98]` — whose digest differs —
rebuilds nothing and never invokes the embedder for the new content:
rebuilding is gated on the session-wide `embeddings_done` flag (`app.py`
line 51), not on the content hash computed at line 41, so the "rebuild iff no
Index for that hash already exists" half of the claim fails. -/
theorem rebuild_gated_by_flag_not_hash :
    md5Stub [97] ≠ md5Stub [98] ∧
    (sidebarStep md5Stub extractAscii initState (some [97]) (some "sk-test")).embedCalls = 1 ∧
    (sidebarStep md5Stub extractAscii initState (some [97]) (some "sk-test")).embeddings_done
      = true ∧
    (sidebarStep md5Stub extractAscii
        (sidebarStep md5Stub extractAscii initState (some [97]) (some "sk-test"))
        (some [98]) (some "sk-test")).coach
      = (sidebarStep md5Stub extractAscii initState (some [97]) (some "sk-test")).coach ∧
    (sidebarStep md5Stub extractAscii
        (sidebarStep md5Stub extractAscii initState (some [97]) (some "sk-test"))
        (some [98]) (some "sk-test")).embedCalls = 1 :=
  ⟨by decide, rfl, rfl, rfl, rfl⟩

/-- C4: the code at the failing input.  One successful ask call on a freshly
ingested session leaves the conversation history empty — length 0, not 1 —
because `app.py` lines 217-219 never append the (question, answer) turn. -/
theorem ask_does_not_append_turn :
    ((run md5Stub extractAscii (fun _ _ => Except.ok "answer") initState
        [Op.sidebar (some [97]) (some "sk-test"),
         Op.chat "How far should I run today?"]).1.chat_history) = [] := rfl

/-- C5: an ask (chat) call that fails at the answer-generation step leaves
the conversation-turn sequence unchanged — no partial turn is appended;
indeed the whole session state is unchanged. -/
theorem failed_ask_preserves_history
    (llm : String → List (String × String) → Except String String)
    (s : AppState) (q : String) (e : String)
    (hfail : llm q s.chat_history = Except.error e) :
    (chatStep llm s q).1.chat_history = s.chat_history ∧
    (chatStep llm s q).1 = s := by
  have h1 : (chatStep llm s q).1 = s := by
    simp only [chatStep]
    split
    · rw [hfail]
    · rfl
  exact ⟨by rw [h1], h1⟩

/-- Witness for C5: a generation service that always fails, against a session
with a built coach. -/
theorem failed_ask_preserves_history_witness :
    failLlm "hi" readyState.chat_history = Except.error "rate limit" ∧
    ((chatStep failLlm readyState "hi").1.chat_history = readyState.chat_history ∧
     (chatStep failLlm readyState "hi").1 = readyState) :=
  ⟨rfl, failed_ask_preserves_history failLlm readyState "hi" "rate limit" rfl⟩

/-- C6 counterexample: a document one byte above the 200 MiB limit is not
rejected.  Ingestion writes it to `temp_plan.txt` and processes it fully
(`embeddings_done` becomes true) — there is no size check and no
`PayloadTooLargeError` in `app.py` lines 39-45, and the temporary file
remains on disk afterward. -/
theorem oversized_upload_accepted :
    209715200 < bigDoc.length ∧
    (sidebarStep md5Stub extractAscii initState (some bigDoc) (some "sk-test")).tempFile
      = some bigDoc ∧
    (sidebarStep md5Stub extractAscii initState (some bigDoc) (some "sk-test")).embeddings_done
      = true := by
  refine ⟨?_, rfl, rfl⟩
  unfold bigDoc
  rw [List.length_replicate]
  norm_num

/-- C6 amended: ingestion enforces no maximum byte size: any uploaded
document — in particular any one whose size exceeds the 200 MiB example limit
— is accepted and written to the temporary file, and extraction work begins
on it. -/
theorem no_size_limit_enforced (md5 : List Nat → String)
    (extract : List Nat → Except String String) (s : AppState)
    (b : List Nat) (k : String) (hbig : 209715200 < b.length) :
    (sidebarStep md5 extract s (some b) (some k)).tempFile = some b :=
  sidebarStep_tempFile md5 extract s b k

/-- Witness for C6 (amended) at a concrete oversized document. -/
theorem no_size_limit_enforced_witness :
    209715200 < bigDoc.length ∧
    (sidebarStep md5Stub extractAscii initState (some bigDoc) (some "sk-test")).tempFile
      = some bigDoc := by
  have hbig : 209715200 < bigDoc.length := by
    unfold bigDoc
    rw [List.length_replicate]
    norm_num
  exact ⟨hbig, no_size_limit_enforced md5Stub extractAscii initState bigDoc "sk-test" hbig⟩

/-- C7 counterexample: the temporary file is not removed on the exit paths of
ingestion.  Starting with no file on disk, both a successful ingestion and
one whose extraction fails leave `temp_plan.txt` on disk holding the
uploaded bytes: `app.py` writes the file at lines 44-45 and never deletes
it. -/
theorem temp_file_persists_after_ingest :
    initState.tempFile = none ∧
    (sidebarStep md5Stub extractAscii initState (some [97]) (some "sk-test")).tempFile
      = some [97] ∧
    (sidebarStep md5Stub failExtract initState (some [97]) (some "sk-test")).tempFile
      = some [97] :=
  ⟨rfl, rfl, rfl⟩

/-- C7 amended: no exit path of ingestion removes the temporary file: after
any sidebar pass with a file and a key — cached, successful, or failed at
extraction — `temp_plan.txt` holds the uploaded bytes; on an extraction
failure the temp-file and API-key writes are moreover the only changes. -/
theorem temp_file_never_removed (md5 : List Nat → String)
    (extract : List Nat → Except String String) (s : AppState)
    (b : List Nat) (k : String) :
    (sidebarStep md5 extract s (some b) (some k)).tempFile = some b ∧
    (∀ e, s.embeddings_done = false → extract b = Except.error e →
      sidebarStep md5 extract s (some b) (some k)
        = { s with tempFile := some b, apiKey := some k }) :=
  ⟨sidebarStep_tempFile md5 extract s b k,
   fun e hdone hex => sidebarStep_extract_error md5 extract s b k e hdone hex⟩

/-- Witness for C7 (amended): a concrete failing extraction on a fresh
session. -/
theorem temp_file_never_removed_witness :
    initState.embeddings_done = false ∧
    failExtract [97] = Except.error "decode error" ∧
    ((sidebarStep md5Stub failExtract initState (some [97]) (some "sk-test")).tempFile
        = some [97] ∧
      sidebarStep md5Stub failExtract initState (some [97]) (some "sk-test")
        = { initState with tempFile := some [97], apiKey := some "sk-test" }) :=
  ⟨rfl, rfl,
   (temp_file_never_removed md5Stub failExtract initState [97] "sk-test").1,
   (temp_file_never_removed md5Stub failExtract initState [97] "sk-test").2
     "decode error" rfl rfl⟩

/-- C8: the conversation-turn history is invariantly empty.  From the
initial session state, any sequence of interactions (ingestions, plan
generations, run loggings, chats) leaves `chat_history` empty, and every
generation request issued along the way carries the empty history. -/
theorem chat_history_invariantly_empty (md5 : List Nat → String)
    (extract : List Nat → Except String String)
    (llm : String → List (String × String) → Except String String)
    (ops : List Op) :
    (run md5 extract llm initState ops).1.chat_history = [] ∧
    (run md5 extract llm initState ops).2.all List.isEmpty = true := by
  obtain ⟨h1, h2⟩ := run_chat_history_invariant md5 extract llm ops initState
  refine ⟨h1, ?_⟩
  rw [List.all_eq_true]
  intro hh hmem
  rcases h2 hh hmem with h | h <;> simp [h, initState]

/-- C9: the content hash computed at ingestion never influences behavior.
The sidebar step yields identical states under any two digest functions, and
once an ingestion has succeeded (`embeddings_done` set), a later upload of
any bytes keeps the previously built coach and performs no re-embedding: the
only changes are the unconditional temp-file and API-key writes. -/
theorem hash_no_influence :
    (∀ (md5a md5b : List Nat → String) (extract : List Nat → Except String String)
        (s : AppState) (u : Option (List Nat)) (k : Option String),
        sidebarStep md5a extract s u k = sidebarStep md5b extract s u k) ∧
    (∀ (md5 : List Nat → String) (extract : List Nat → Except String String)
        (s : AppState) (b : List Nat) (k : String),
        s.embeddings_done = true →
        sidebarStep md5 extract s (some b) (some k)
          = { s with tempFile := some b, apiKey := some k }) := by
  constructor
  · intro md5a md5b extract s u k
    cases u <;> cases k <;> rfl
  · intro md5 extract s b k h
    exact sidebarStep_done md5 extract s b k h

/-- Witness for C9: after a completed ingestion, uploading different bytes
changes only the temp file and the exported key. -/
theorem hash_no_influence_witness :
    readyState.embeddings_done = true ∧
    sidebarStep md5Stub extractAscii readyState (some [98]) (some "sk-test")
      = { readyState with tempFile := some [98], apiKey := some "sk-test" } :=
  ⟨rfl, hash_no_influence.2 md5Stub extractAscii readyState [98] "sk-test" rfl⟩

/-- C10: on every rerun in which both a file and a credential are supplied,
the sidebar unconditionally overwrites `temp_plan.txt` with the uploaded
bytes and sets the `OPENAI_API_KEY` environment variable — even when the
index is already built, in which case those two writes are the only effect
and no processing occurs. -/
theorem sidebar_always_writes_temp_and_env (md5 : List Nat → String)
    (extract : List Nat → Except String String) (s : AppState)
    (b : List Nat) (k : String) :
    (sidebarStep md5 extract s (some b) (some k)).tempFile = some b ∧
    (sidebarStep md5 extract s (some b) (some k)).apiKey = some k ∧
    (s.embeddings_done = true →
      sidebarStep md5 extract s (some b) (some k)
        = { s with tempFile := some b, apiKey := some k }) :=
  ⟨sidebarStep_tempFile md5 extract s b k,
   sidebarStep_apiKey md5 extract s b k,
   fun h => sidebarStep_done md5 extract s b k h⟩

/-- Witness for C10 on a session whose index is already built. -/
theorem sidebar_always_writes_temp_and_env_witness :
    readyState.embeddings_done = true ∧
    ((sidebarStep md5Stub extractAscii readyState (some [99]) (some "sk-2")).tempFile
        = some [99] ∧
      (sidebarStep md5Stub extractAscii readyState (some [99]) (some "sk-2")).apiKey
        = some "sk-2" ∧
      sidebarStep md5Stub extractAscii readyState (some [99]) (some "sk-2")
        = { readyState with tempFile := some [99], apiKey := some "sk-2" }) := by
  obtain ⟨h1, h2, h3⟩ :=
    sidebar_always_writes_temp_and_env md5Stub extractAscii readyState [99] "sk-2"
  exact ⟨rfl, h1, h2, h3 rfl⟩
